import Mathlib

/-!
Verification development for the Keepitbased market-data service.

The definitions below are a shallow embedding of the two Python source files
`kraken_api_provider.py` and `python-service/stock_service.py`:

* numeric fields use `ℚ` (the code computes in double precision; all claims
  under study are exact-arithmetic claims, and the concrete inputs used in
  witnesses and counterexamples are exactly representable);
* pandas library calls (`ewm(span).mean()`, `rolling(w).mean()`, `diff()`,
  `where`) are embedded by their documented semantics, which is what the
  source invokes;
* IEEE special values produced by the RSI division (`NaN`, `±inf`) are made
  explicit in the small `FloatVal` type;
* Python `try/except` blocks that catch and log are embedded by total
  functions returning the caught branch value (`none` / empty shapes);
* wall-clock timestamp fields (`datetime.now().isoformat()`) are omitted:
  no claim mentions them.
-/

namespace Keepitbased

/-- IEEE-style value lattice for the RSI pipeline: pandas propagates `NaN`
through `diff`/division, and division of a positive number by zero yields
`+inf`.  Only the operations the source performs are embedded. -/
inductive FloatVal where
  | nan
  | inf
  | ninf
  | num (q : ℚ)
deriving DecidableEq

namespace FloatVal

/-- IEEE addition restricted to the cases reachable in the source. -/
def add : FloatVal → FloatVal → FloatVal
  | nan, _ => nan
  | _, nan => nan
  | inf, ninf => nan
  | ninf, inf => nan
  | inf, _ => inf
  | ninf, _ => ninf
  | num _, inf => inf
  | num _, ninf => ninf
  | num a, num b => num (a + b)

/-- IEEE negation. -/
def neg : FloatVal → FloatVal
  | nan => nan
  | inf => ninf
  | ninf => inf
  | num q => num (-q)

/-- IEEE subtraction, `a - b = a + (-b)`. -/
def sub (a b : FloatVal) : FloatVal := a.add b.neg

/-- IEEE division: `0/0 = NaN`, `a/0 = ±inf` by the sign of `a` (pandas
zeros are `+0.0`), finite `/ ±inf = 0`, `±inf / ±inf = NaN`. -/
def div : FloatVal → FloatVal → FloatVal
  | nan, _ => nan
  | _, nan => nan
  | inf, inf => nan
  | inf, ninf => nan
  | ninf, inf => nan
  | ninf, ninf => nan
  | inf, num b => if 0 ≤ b then inf else ninf
  | ninf, num b => if 0 ≤ b then ninf else inf
  | num _, inf => num 0
  | num _, ninf => num 0
  | num a, num b =>
      if b = 0 then
        if a = 0 then nan else if 0 < a then inf else ninf
      else num (a / b)

/-- A pandas cell that is `NaN` (here: `none` from a warm-up window) viewed
as a `FloatVal`. -/
def ofOpt : Option ℚ → FloatVal
  | none => nan
  | some q => num q

end FloatVal

/-!
### pandas primitives used by both indicator paths

`Series.ewm(span=s).mean()` with pandas defaults (`adjust=True`,
`min_periods=0`): the implementation keeps a running weighted numerator and
denominator, multiplying both by `1-α` before adding the new observation
with weight `1`, and emits their quotient at every position.
-/

/-- Running-state loop of pandas `ewm(...).mean()` with `adjust=True`:
`num` and `den` carry the decayed weighted sum and the decayed total
weight accumulated so far. -/
def ewmAux (a : ℚ) : List ℚ → ℚ → ℚ → List ℚ
  | [], _, _ => []
  | x :: xs, num, den =>
    let num := (1 - a) * num + x
    let den := (1 - a) * den + 1
    num / den :: ewmAux a xs num den

/-- `closes.ewm(span=span).mean()` with pandas defaults, smoothing factor
`α = 2/(span+1)`. -/
def ewmMean (span : ℕ) (xs : List ℚ) : List ℚ :=
  ewmAux (2 / (span + 1)) xs 0 0

/-- `closes.rolling(window=w).mean()` with pandas defaults
(`min_periods = w`): position `i` is the mean of the `w` entries ending at
`i` once `w` observations exist, `NaN` (here `none`) before that. -/
def rollingMean (w : ℕ) (xs : List ℚ) : List (Option ℚ) :=
  (List.range xs.length).map fun i =>
    if w ≤ i + 1 then some (((xs.drop (i + 1 - w)).take w).sum / w) else none

/-- `closes.diff()`: position `0` is `NaN`, position `i` is
`x[i] - x[i-1]`. -/
def diffList (xs : List ℚ) : List (Option ℚ) :=
  (List.range xs.length).map fun i =>
    if i = 0 then none else some (xs.getD i 0 - xs.getD (i - 1) 0)

/-- `delta.where(delta > 0, 0)`: keep the value where the condition holds,
else `0`; a `NaN` cell fails the comparison and becomes `0`. -/
def gainCell : Option ℚ → ℚ
  | some v => if v > 0 then v else 0
  | none => 0

/-- `-delta.where(delta < 0, 0)`: keep-and-negate where `delta < 0`, else
`0`; a `NaN` cell fails the comparison and becomes `-0 = 0`. -/
def lossCell : Option ℚ → ℚ
  | some v => if v < 0 then -v else 0
  | none => 0

/-- The RSI pipeline shared verbatim by both source files:
`delta = close.diff()`, 14-window rolling means of gains and losses,
`rs = gain / loss`, `rsi = 100 - 100/(1 + rs)`, with IEEE special values
propagated explicitly. -/
def rsiSeries (closes : List ℚ) : List FloatVal :=
  let delta := diffList closes
  let gain := rollingMean 14 (delta.map gainCell)
  let loss := rollingMean 14 (delta.map lossCell)
  let rs := List.zipWith FloatVal.div (gain.map FloatVal.ofOpt) (loss.map FloatVal.ofOpt)
  rs.map fun r => FloatVal.sub (.num 100) (FloatVal.div (.num 100) (FloatVal.add (.num 1) r))

/-!
### Canonical candle model and the OHLC normalizer
(`KrakenDataProvider.get_ohlc_data`)

A raw OHLC payload row is positional
`[time, open, high, low, close, vwap, volume, trades]`; the per-field
`int()`/`float()` parses are the identity on this already-numeric model, so
a processed candle and a raw row share one structure.  The payload argument
is the candle list keyed by the requested pair: `none` embeds both "pair
missing from the response" and "the underlying fetch raised" (the code
catches either and returns the empty result).  The `interval` request
parameter only shapes the upstream HTTP query and is omitted.
-/

/-- One canonical candle, as built by `get_ohlc_data`'s processing loop. -/
structure Candle where
  time : Int
  open_ : ℚ
  high : ℚ
  low : ℚ
  close : ℚ
  vwap : ℚ
  volume : ℚ
  trades : Int
deriving DecidableEq

/-- The dictionary `get_ohlc_data` returns (timestamp field omitted). -/
structure OhlcResult where
  data : List Candle
  count : ℕ
deriving DecidableEq

/-- `processed_data[-limit:]` guarded by `if limit and limit > 0`: Python
slicing from the end keeps the last `min(limit, len)` entries; `limit`
values `None`, `0` and negatives leave the list unchanged. -/
def applyLimit (limit : Option Int) (xs : List Candle) : List Candle :=
  match limit with
  | some l => if l > 0 then xs.drop (xs.length - l.toNat) else xs
  | none => xs

/-- The Bool comparison `processed_data.sort(key=lambda x: x['time'])`
sorts by. -/
def timeLe (a b : Candle) : Bool := decide (a.time ≤ b.time)

/-- `KrakenDataProvider.get_ohlc_data`: process the rows, apply the limit,
then stable-sort ascending by `time` (Python `list.sort` is stable, as is
`List.mergeSort`). -/
def get_ohlc_data (payload : Option (List Candle)) (limit : Option Int) : OhlcResult :=
  match payload with
  | none => { data := [], count := 0 }
  | some candles =>
    let processed_data := applyLimit limit candles
    let processed_data := processed_data.mergeSort timeLe
    { data := processed_data, count := processed_data.length }

/-- The last `k` entries of a list (the spec's "tail, not head"). -/
def lastN (k : ℕ) (xs : List Candle) : List Candle := xs.drop (xs.length - k)

/-!
### Ticker normalizer (`KrakenDataProvider.get_ticker`)

Each `RawTicker` field holds the scalar the code extracts from the pair's
ticker dictionary (`c[0]`, `o`, `h[1]`, ..., `a[0]`); `none` embeds a
missing key or index, whose `KeyError`/`IndexError` the enclosing
`try/except` turns into a `None` return.  The outer `Option` of the payload
embeds "pair absent from the response" (also a `None` return).
-/

/-- Scalars extractable from one pair's raw ticker entry. -/
structure RawTicker where
  c : Option ℚ
  o : Option ℚ
  h : Option ℚ
  l : Option ℚ
  v : Option ℚ
  p : Option ℚ
  t : Option Int
  b : Option ℚ
  a : Option ℚ
deriving DecidableEq

/-- The formatted ticker snapshot (timestamp field omitted); the three
derived fields are optional because the code adds them only under the
`open > 0` guard. -/
structure Ticker where
  price : ℚ
  open_ : ℚ
  high : ℚ
  low : ℚ
  volume : ℚ
  vwap : ℚ
  trades : Int
  bid : ℚ
  ask : ℚ
  change : Option ℚ
  change_percent : Option ℚ
  spread : Option ℚ
deriving DecidableEq

/-- `KrakenDataProvider.get_ticker`: all base fields are extracted
unconditionally (a missing one raises, caught as `none`); `change`,
`change_percent` and `spread` are added exactly when `open > 0`. -/
def get_ticker (payload : Option RawTicker) : Option Ticker :=
  match payload with
  | none => none
  | some tk =>
    match tk.c, tk.o, tk.h, tk.l, tk.v, tk.p, tk.t, tk.b, tk.a with
    | some price, some op, some hi, some lo, some vol, some vw,
      some tr, some bid, some ask =>
      let base : Ticker :=
        { price := price, open_ := op, high := hi, low := lo, volume := vol,
          vwap := vw, trades := tr, bid := bid, ask := ask,
          change := none, change_percent := none, spread := none }
      if op > 0 then
        some { base with
                change := some (price - op),
                change_percent := some ((price - op) / op * 100),
                spread := some (ask - bid) }
      else
        some base
    | _, _, _, _, _, _, _, _, _ => none

/-!
### Order book and recent trades
(`KrakenDataProvider.get_order_book`, `get_recent_trades`)
-/

/-- One formatted order-book level. -/
structure BookEntry where
  price : ℚ
  volume : ℚ
  timestamp : Int
deriving DecidableEq

/-- The raw book for the requested pair: positional `[price, volume, time]`
levels, already-numeric in this model. -/
structure RawBook where
  asks : List BookEntry
  bids : List BookEntry
deriving DecidableEq

/-- The formatted order book (timestamp field omitted). -/
structure OrderBook where
  asks : List BookEntry
  bids : List BookEntry
deriving DecidableEq

/-- `KrakenDataProvider.get_order_book`: `book_data['asks'][:depth]` and
`book_data['bids'][:depth]`, each level reformatted field by field. -/
def get_order_book (payload : Option RawBook) (depth : ℕ) : Option OrderBook := do
  let book_data ← payload
  pure { asks := book_data.asks.take depth, bids := book_data.bids.take depth }

/-- One raw trade row, positional
`[price, volume, time, side, type, misc]` (numeric fields already parsed
in this model). -/
structure RawTrade where
  price : ℚ
  volume : ℚ
  time : ℚ
  side : String
  type_ : String
  misc : String
deriving DecidableEq

/-- One formatted trade, as built by `get_recent_trades`'s loop. -/
structure Trade where
  price : ℚ
  volume : ℚ
  time : ℚ
  side : String
  type_ : String
  misc : String
deriving DecidableEq

/-- The per-row reformatting in `get_recent_trades`. -/
def formatTrade (t : RawTrade) : Trade :=
  { price := t.price, volume := t.volume, time := t.time,
    side := t.side, type_ := t.type_, misc := t.misc }

/-- The dictionary `get_recent_trades` returns (timestamp omitted). -/
structure TradesResult where
  trades : List Trade
  count : ℕ
deriving DecidableEq

/-- `KrakenDataProvider.get_recent_trades`: format the rows of
`trade_data[:limit]` — the head of the provider list, not its tail. -/
def get_recent_trades (payload : Option (List RawTrade)) (limit : ℕ) :
    Option TradesResult := do
  let trade_data ← payload
  let formatted_trades := (trade_data.take limit).map formatTrade
  pure { trades := formatted_trades, count := formatted_trades.length }

/-!
### Indicator engine
(`KrakenDataProvider.calculate_technical_indicators`)

Below 50 candles the code returns a dictionary of empty lists (the `macd`
entry is an empty list there rather than the three-list dictionary; both
shapes are embedded as the three component lists being empty).  Inside the
computation no exception can arise over `ℚ`, so its `try/except` is
transparent here.
-/

/-- The indicator bundle built by `calculate_technical_indicators`, with
the `macd` sub-dictionary flattened into its three lists. -/
structure Indicators where
  sma_20 : List (Option ℚ)
  sma_50 : List (Option ℚ)
  ema_12 : List ℚ
  ema_26 : List ℚ
  macd_line : List ℚ
  macd_signal : List ℚ
  macd_histogram : List ℚ
  rsi : List FloatVal
deriving DecidableEq

/-- `KrakenDataProvider.calculate_technical_indicators`. -/
def calculate_technical_indicators (data : List Candle) : Indicators :=
  if data.length < 50 then
    { sma_20 := [], sma_50 := [], ema_12 := [], ema_26 := [],
      macd_line := [], macd_signal := [], macd_histogram := [], rsi := [] }
  else
    let close := data.map Candle.close
    let sma_20 := rollingMean 20 close
    let sma_50 := rollingMean 50 close
    let ema_12 := ewmMean 12 close
    let ema_26 := ewmMean 26 close
    let macd_line := List.zipWith (· - ·) ema_12 ema_26
    let signal_line := ewmMean 9 macd_line
    let macd_histogram := List.zipWith (· - ·) macd_line signal_line
    { sma_20 := sma_20, sma_50 := sma_50, ema_12 := ema_12, ema_26 := ema_26,
      macd_line := macd_line, macd_signal := signal_line,
      macd_histogram := macd_histogram, rsi := rsiSeries close }

/-!
### Aggregation facade (`KrakenDataProvider.get_market_summary`)

Each sub-fetch argument is the raw payload that sub-call would work on;
`none` embeds both a raised underlying fetch and a missing pair, which
every getter catches internally, so no exception crosses the facade.  The
facade passes `limit=24`, `limit=30`, `depth=5`, `limit=20` exactly as the
source does, and `technical_indicators` is the engine output on the daily
series when `ohlc_1d['data']` is non-empty, else the empty dictionary
(embedded as `none`).
-/

/-- The market-summary object (timestamp and echoed symbol omitted). -/
structure Summary where
  ticker : Option Ticker
  ohlc_1h : OhlcResult
  ohlc_1d : OhlcResult
  order_book : Option OrderBook
  recent_trades : Option TradesResult
  technical_indicators : Option Indicators
deriving DecidableEq

/-- `KrakenDataProvider.get_market_summary`. -/
def get_market_summary (rawTicker : Option RawTicker)
    (raw1h raw1d : Option (List Candle)) (rawBook : Option RawBook)
    (rawTrades : Option (List RawTrade)) : Summary :=
  let ticker := get_ticker rawTicker
  let ohlc_1h := get_ohlc_data raw1h (some 24)
  let ohlc_1d := get_ohlc_data raw1d (some 30)
  let order_book := get_order_book rawBook 5
  let recent_trades := get_recent_trades rawTrades 20
  let indicators :=
    if ohlc_1d.data ≠ [] then some (calculate_technical_indicators ohlc_1d.data)
    else none
  { ticker := ticker, ohlc_1h := ohlc_1h, ohlc_1d := ohlc_1d,
    order_book := order_book, recent_trades := recent_trades,
    technical_indicators := indicators }

/-!
### Cache layer (`stock_service.py`)

`redis_client` may be `None` (construction failed); its `get`/`setex`
operations may raise, embedded as `Except` results.  `get_cached_data` and
`set_cached_data` wrap every store access in `try/except`, so their own
result types are `Except`-free reads and an always-`ok` write.  The cached
payload is abstracted over a type `α` (the code round-trips JSON).
-/

/-- The behaviour of an available redis client: both operations may
fail. -/
structure RedisClient (α : Type) where
  get : String → Except String (Option α)
  setex : String → ℕ → α → Except String Unit

/-- `get_cached_data`: absent client or a raising `get` is a miss
(`None`); a stored value is returned as-is. -/
def get_cached_data {α : Type} (redis_client : Option (RedisClient α))
    (key : String) : Option α :=
  match redis_client with
  | none => none
  | some c =>
    match c.get key with
    | .ok (some cached) => some cached
    | .ok none => none
    | .error _ => none

/-- `set_cached_data`: absent client returns immediately; a raising
`setex` is caught and logged — the caller always sees a normal return,
embedded as `.ok ()`. -/
def set_cached_data {α : Type} (redis_client : Option (RedisClient α))
    (key : String) (data : α) (ttl : ℕ) : Except String Unit :=
  match redis_client with
  | none => .ok ()
  | some c =>
    match c.setex key ttl data with
    | .ok _ => .ok ()
    | .error _ => .ok ()

/-- The cache bracket every endpoint follows (`get_quote`, `get_history`,
`get_stock_info`): return a hit, else compute fresh, best-effort write,
return the fresh value.  `fresh` stands for the already-fetched
computation result. -/
def cachedEndpoint {α : Type} (redis_client : Option (RedisClient α))
    (key : String) (fresh : α) (ttl : ℕ) : Except String α :=
  match get_cached_data redis_client key with
  | some cached => .ok cached
  | none => do
    let _ ← set_cached_data redis_client key fresh ttl
    pure fresh

/-!
### Equities-path indicator endpoint (`get_technical_indicators`)

Computes the same pandas pipeline over the close series with no length
floor, then masks each cell with `None` where `pd.isna` holds.  Over this
model `macd_line` and `signal_line` cells are rationals, never `NaN`, so
their mask is the constant `some`; `rsi` cells are `FloatVal` and the mask
sends exactly `nan` to `none` (`±inf` is not NA for pandas).  The `time`
field is provider data and is omitted. -/

/-- One row of the `technical_data` list the endpoint builds. -/
structure TechRow where
  close : ℚ
  sma20 : Option ℚ
  sma50 : Option ℚ
  macd : Option ℚ
  signal : Option ℚ
  rsi : Option FloatVal
deriving DecidableEq

/-- `pd.isna` masking of an RSI cell. -/
def maskRsi : FloatVal → Option FloatVal
  | .nan => none
  | v => some v

/-- `get_technical_indicators`'s computation on the close series. -/
def stockTechnical (closes : List ℚ) : List TechRow :=
  let sma_20 := rollingMean 20 closes
  let sma_50 := rollingMean 50 closes
  let ema_12 := ewmMean 12 closes
  let ema_26 := ewmMean 26 closes
  let macd_line := List.zipWith (· - ·) ema_12 ema_26
  let signal_line := ewmMean 9 macd_line
  let rsi := rsiSeries closes
  (List.range closes.length).map fun i =>
    { close := closes.getD i 0,
      sma20 := sma_20.getD i none,
      sma50 := sma_50.getD i none,
      macd := some (macd_line.getD i 0),
      signal := some (signal_line.getD i 0),
      rsi := maskRsi (rsi.getD i .nan) }

/-!
### Spec-side closed forms for the adjusted EMA

`wSum r i = 1 + r + ... + r^i` and
`adjWeighted r xs i = Σ_{j ≤ i} r^(i-j)·xs[j]`, stated recursively; these
are the amended claim's description of pandas' `adjust=True` weighting and
are compared against the source-embedded `ewmMean`.
-/

/-- Partial geometric weight sum `1 + r + ... + r^i`. -/
def wSum (r : ℚ) : ℕ → ℚ
  | 0 => 1
  | i + 1 => wSum r i + r ^ (i + 1)

/-- Decayed weighted sum `Σ_{j ≤ i} r^(i-j)·xs[j]` of the first `i + 1`
list entries. -/
def adjWeighted (r : ℚ) : List ℚ → ℕ → ℚ
  | [], _ => 0
  | x :: _, 0 => x
  | x :: xs, i + 1 => r ^ (i + 1) * x + adjWeighted r xs i

/-! ### Helper lemmas -/

theorem ewmAux_length (a : ℚ) :
    ∀ (xs : List ℚ) (num den : ℚ), (ewmAux a xs num den).length = xs.length
  | [], _, _ => rfl
  | _ :: xs, num, den => by simp [ewmAux, ewmAux_length a xs]

theorem ewmMean_length (span : ℕ) (xs : List ℚ) :
    (ewmMean span xs).length = xs.length :=
  ewmAux_length _ _ _ _

theorem ewmAux_getD (a : ℚ) :
    ∀ (xs : List ℚ) (num den : ℚ) (i : ℕ), i < xs.length →
      (ewmAux a xs num den).getD i 0
        = ((1 - a) ^ (i + 1) * num + adjWeighted (1 - a) xs i)
          / ((1 - a) ^ (i + 1) * den + wSum (1 - a) i)
  | [], _, _, i, hi => by simp at hi
  | x :: xs, num, den, 0, _ => by
      simp only [ewmAux, List.getD_cons_zero, adjWeighted, wSum, pow_one]
      ring_nf
  | x :: xs, num, den, i + 1, hi => by
      have hi2 : i < xs.length := Nat.lt_of_succ_lt_succ (by simpa using hi)
      have IH := ewmAux_getD a xs ((1 - a) * num + x) ((1 - a) * den + 1) i hi2
      simp only [ewmAux, List.getD_cons_succ]
      rw [IH]
      congr 1
      · simp only [adjWeighted]; ring
      · simp only [wSum]; ring

theorem ewmMean_getD (span : ℕ) (xs : List ℚ) (i : ℕ) (hi : i < xs.length) :
    (ewmMean span xs).getD i 0
      = adjWeighted (1 - 2 / (span + 1)) xs i / wSum (1 - 2 / (span + 1)) i := by
  simpa using ewmAux_getD (2 / (span + 1)) xs 0 0 i hi

/-!
## Claim C1 — EMA form
-/

unseal Rat.add Rat.sub Rat.mul Rat.inv Rat.ofScientific in
/-- C1 counterexample: on the close series `[1, 2]` with span 12 the
engine's EMA output violates the claimed recursive seeded form
`ema[0] = close[0]`, `ema[1] = α·close[1] + (1-α)·ema[0]` with
`α = 2/(span+1)`: the code's pandas `ewm(span=12).mean()` (default
`adjust=True`) yields `ema[1] = 37/24`, while the recursive form demands
`15/13`. -/
theorem C1_ema_seeded_form_fails :
    ¬ ((ewmMean 12 [(1 : ℚ), 2]).getD 0 0 = 1 ∧
       (ewmMean 12 [(1 : ℚ), 2]).getD 1 0
         = 2 / (12 + 1) * 2 + (1 - 2 / (12 + 1)) * (ewmMean 12 [(1 : ℚ), 2]).getD 0 0) := by
  decide

/-- C1 (amended): for every non-empty close sequence and every span, the
EMA output has the input's length, its first element equals the first
close, and element `i` equals the pandas `adjust=True` weighted average
`Σ_{j ≤ i} (1-α)^(i-j)·close[j] / Σ_{j ≤ i} (1-α)^j` with
`α = 2/(span+1)` — not the plain recursive seeded form. -/
theorem C1_ema_adjusted_form (span : ℕ) (closes : List ℚ) (h : closes ≠ []) :
    (ewmMean span closes).length = closes.length ∧
    (ewmMean span closes).getD 0 0 = closes.getD 0 0 ∧
    ∀ i, i < closes.length →
      (ewmMean span closes).getD i 0
        = adjWeighted (1 - 2 / (span + 1)) closes i
          / wSum (1 - 2 / (span + 1)) i := by
  refine ⟨ewmMean_length span closes, ?_, fun i hi => ewmMean_getD span closes i hi⟩
  have h0 : 0 < closes.length := List.length_pos.mpr h
  have h1 := ewmMean_getD span closes 0 h0
  cases closes with
  | nil => exact absurd rfl h
  | cons x xs => simpa [adjWeighted, wSum] using h1

unseal Rat.add Rat.sub Rat.mul Rat.inv Rat.ofScientific in
/-- C1 witness: the amended theorem instantiated at span 12 and the close
series `[1, 2]`. -/
theorem C1_ema_adjusted_form_witness :
    ([(1 : ℚ), 2] ≠ []) ∧
    ((ewmMean 12 [(1 : ℚ), 2]).length = [(1 : ℚ), 2].length ∧
     (ewmMean 12 [(1 : ℚ), 2]).getD 0 0 = [(1 : ℚ), 2].getD 0 0 ∧
     ∀ i, i < [(1 : ℚ), 2].length →
       (ewmMean 12 [(1 : ℚ), 2]).getD i 0
         = adjWeighted (1 - 2 / (12 + 1)) [(1 : ℚ), 2] i
           / wSum (1 - 2 / (12 + 1)) i) :=
  ⟨by decide, C1_ema_adjusted_form 12 [1, 2] (by decide)⟩

/-!
## Claim C2 — OHLC truncation law
-/

unseal Rat.add Rat.sub Rat.mul Rat.inv Rat.ofScientific List.merge List.mergeSort in
/-- C2 counterexample: `get_ohlc_data` truncates with
`processed_data[-limit:]` **before** `processed_data.sort(...)`, so on a
payload whose rows arrive in descending time order (`time = 2` then
`time = 1`) the `limit = 1` call keeps the raw tail (the `time = 1` row),
while the last entry of the unlimited, sorted sequence is the `time = 2`
row — the claimed truncation law fails. -/
theorem C2_truncation_law_fails :
    (get_ohlc_data (some [⟨2, 1, 1, 1, 1, 1, 1, 0⟩, ⟨1, 1, 1, 1, 1, 1, 1, 0⟩])
        (some 1)).data
      ≠ lastN 1
          (get_ohlc_data (some [⟨2, 1, 1, 1, 1, 1, 1, 0⟩, ⟨1, 1, 1, 1, 1, 1, 1, 0⟩])
            none).data := by
  decide

/-- C2 (amended): for every raw OHLC payload whose rows are already in
ascending time order (as the Kraken provider delivers them) and every
positive `k` not larger than the number of rows, the normalizer called
with `limit = k` returns exactly the last `k` entries of the sequence it
returns with no limit. -/
theorem C2_truncation_law_sorted (candles : List Candle) (k : ℕ)
    (hsorted : List.Pairwise (fun a b => a.time ≤ b.time) candles)
    (hk : 0 < k) (_hkn : k ≤ candles.length) :
    (get_ohlc_data (some candles) (some (k : Int))).data
      = lastN k (get_ohlc_data (some candles) none).data := by
  have hs : List.Pairwise (fun a b => timeLe a b) candles :=
    hsorted.imp fun h => by simpa [timeLe] using h
  have hdrop : List.Pairwise (fun a b => timeLe a b)
      (candles.drop (candles.length - k)) :=
    hs.sublist (List.drop_sublist _ _)
  have hklim : ((k : Int) > 0) := by exact_mod_cast hk
  simp only [get_ohlc_data, applyLimit, lastN, if_pos hklim, Int.toNat_natCast,
    List.mergeSort_of_sorted hs, List.mergeSort_of_sorted hdrop]

unseal Rat.add Rat.sub Rat.mul Rat.inv Rat.ofScientific List.merge List.mergeSort in
/-- C2 witness: the amended theorem instantiated at a two-row ascending
payload with `k = 1`. -/
theorem C2_truncation_law_sorted_witness :
    List.Pairwise (fun a b : Candle => a.time ≤ b.time)
        [⟨1, 1, 1, 1, 1, 1, 1, 0⟩, ⟨2, 1, 1, 1, 1, 1, 1, 0⟩] ∧
    0 < 1 ∧
    1 ≤ ([⟨1, 1, 1, 1, 1, 1, 1, 0⟩, ⟨2, 1, 1, 1, 1, 1, 1, 0⟩] : List Candle).length ∧
    (get_ohlc_data (some [⟨1, 1, 1, 1, 1, 1, 1, 0⟩, ⟨2, 1, 1, 1, 1, 1, 1, 0⟩])
        (some (1 : Int))).data
      = lastN 1
          (get_ohlc_data (some [⟨1, 1, 1, 1, 1, 1, 1, 0⟩, ⟨2, 1, 1, 1, 1, 1, 1, 0⟩])
            none).data :=
  ⟨by decide, by decide, by decide,
   C2_truncation_law_sorted _ 1 (by decide) (by decide) (by decide)⟩

/-!
## Claim C9 — non-positive limits
-/

/-- C9: for every raw OHLC payload, calling the normalizer with `limit = 0`
or a negative limit returns the same result as calling it with no limit:
the guard `if limit and limit > 0` truncates only for strictly positive
limits. -/
theorem C9_nonpositive_limit_id (payload : Option (List Candle)) (l : Int)
    (hl : l ≤ 0) :
    get_ohlc_data payload (some l) = get_ohlc_data payload none := by
  cases payload with
  | none => rfl
  | some candles =>
    have : ¬ l > 0 := by omega
    simp [get_ohlc_data, applyLimit, this]

/-- C9 witness: the theorem instantiated at a one-row payload with
`limit = -3` (and the hypothesis also checked at `limit = 0` implicitly by
the `≤` bound). -/
theorem C9_nonpositive_limit_id_witness :
    ((-3 : Int) ≤ 0) ∧
    get_ohlc_data (some [⟨1, 1, 1, 1, 1, 1, 1, 0⟩]) (some (-3))
      = get_ohlc_data (some [⟨1, 1, 1, 1, 1, 1, 1, 0⟩]) none :=
  ⟨by decide, C9_nonpositive_limit_id _ (-3) (by decide)⟩

/-!
## Claim C10 — recent trades keep the head
-/

/-- C10: for every raw trades payload carrying the requested symbol and
every limit, `get_recent_trades` returns the formatted **first**
`min(limit, n)` rows of the provider's trade list (`trade_data[:limit]`),
in the provider's original order, with `count` equal to that length. -/
theorem C10_recent_trades_head (trade_data : List RawTrade) (limit : ℕ) :
    get_recent_trades (some trade_data) limit
      = some { trades := (trade_data.map formatTrade).take limit,
               count := min limit trade_data.length } := by
  simp [get_recent_trades, List.map_take, List.length_take]

/-!
## Claim C3 — ticker derived fields
-/

/-- C3 counterexample: on a raw ticker payload missing the `open` field
(all other fields present), `get_ticker` does **not** return a snapshot
with the remaining fields — the `KeyError` on `ticker['o']` is caught by
the enclosing `try/except` and the whole snapshot is absent. -/
theorem C3_missing_open_fails :
    get_ticker (some { c := some 5, o := none, h := some 6, l := some 4,
                       v := some 10, p := some 5, t := some 3,
                       b := some 4, a := some 6 }) = none := by
  rfl

/-- C3 (amended): when **all** base fields are available, the normalizer
returns a snapshot carrying them, whose derived fields `change`,
`change_percent` and `spread` are present exactly when `open > 0`; when
any one of the nine base fields (`price`, `open`, `high`, `low`,
`volume`, `vwap`, `trades`, `bid` or `ask`) is missing, the normalizer
returns absent rather than a partial snapshot. -/
theorem C3_derived_fields_guard (price op hi lo vol vw bid ask : ℚ) (tr : Int) :
    get_ticker (some { c := some price, o := some op, h := some hi,
                       l := some lo, v := some vol, p := some vw,
                       t := some tr, b := some bid, a := some ask })
      = some { price := price, open_ := op, high := hi, low := lo,
               volume := vol, vwap := vw, trades := tr, bid := bid, ask := ask,
               change := if op > 0 then some (price - op) else none,
               change_percent := if op > 0 then some ((price - op) / op * 100) else none,
               spread := if op > 0 then some (ask - bid) else none }
    ∧ (∀ (o h l v p : Option ℚ) (t : Option Int) (b a : Option ℚ),
        get_ticker (some { c := none, o := o, h := h, l := l, v := v,
                           p := p, t := t, b := b, a := a }) = none)
    ∧ (∀ (c h l v p : Option ℚ) (t : Option Int) (b a : Option ℚ),
        get_ticker (some { c := c, o := none, h := h, l := l, v := v,
                           p := p, t := t, b := b, a := a }) = none)
    ∧ (∀ (c o l v p : Option ℚ) (t : Option Int) (b a : Option ℚ),
        get_ticker (some { c := c, o := o, h := none, l := l, v := v,
                           p := p, t := t, b := b, a := a }) = none)
    ∧ (∀ (c o h v p : Option ℚ) (t : Option Int) (b a : Option ℚ),
        get_ticker (some { c := c, o := o, h := h, l := none, v := v,
                           p := p, t := t, b := b, a := a }) = none)
    ∧ (∀ (c o h l p : Option ℚ) (t : Option Int) (b a : Option ℚ),
        get_ticker (some { c := c, o := o, h := h, l := l, v := none,
                           p := p, t := t, b := b, a := a }) = none)
    ∧ (∀ (c o h l v : Option ℚ) (t : Option Int) (b a : Option ℚ),
        get_ticker (some { c := c, o := o, h := h, l := l, v := v,
                           p := none, t := t, b := b, a := a }) = none)
    ∧ (∀ (c o h l v p : Option ℚ) (b a : Option ℚ),
        get_ticker (some { c := c, o := o, h := h, l := l, v := v,
                           p := p, t := none, b := b, a := a }) = none)
    ∧ (∀ (c o h l v p : Option ℚ) (t : Option Int) (a : Option ℚ),
        get_ticker (some { c := c, o := o, h := h, l := l, v := v,
                           p := p, t := t, b := none, a := a }) = none)
    ∧ (∀ (c o h l v p : Option ℚ) (t : Option Int) (b : Option ℚ),
        get_ticker (some { c := c, o := o, h := h, l := l, v := v,
                           p := p, t := t, b := b, a := none }) = none) := by
  refine ⟨?_, ?_, ?_, ?_, ?_, ?_, ?_, ?_, ?_, ?_⟩
  · by_cases hop : op > 0 <;>
      simp only [get_ticker, if_pos, if_neg, hop, ite_true, ite_false,
        not_false_iff, Option.some.injEq]
  · intro o h l v p t b a
    rfl
  · intro c h l v p t b a
    cases c <;> rfl
  · intro c o l v p t b a
    cases c <;> cases o <;> rfl
  · intro c o h v p t b a
    cases c <;> cases o <;> cases h <;> rfl
  · intro c o h l p t b a
    cases c <;> cases o <;> cases h <;> cases l <;> rfl
  · intro c o h l v t b a
    cases c <;> cases o <;> cases h <;> cases l <;> cases v <;> rfl
  · intro c o h l v p b a
    cases c <;> cases o <;> cases h <;> cases l <;> cases v <;> cases p <;> rfl
  · intro c o h l v p t a
    cases c <;> cases o <;> cases h <;> cases l <;> cases v <;> cases p <;>
      cases t <;> rfl
  · intro c o h l v p t b
    cases c <;> cases o <;> cases h <;> cases l <;> cases v <;> cases p <;>
      cases t <;> cases b <;> rfl

/-!
## Claim C4 — SMA shape and values
-/

theorem rollingMean_length (w : ℕ) (xs : List ℚ) :
    (rollingMean w xs).length = xs.length := by
  simp [rollingMean]

theorem rollingMean_getD (w : ℕ) (xs : List ℚ) (i : ℕ) (hi : i < xs.length) :
    (rollingMean w xs).getD i none
      = if w ≤ i + 1 then some (((xs.drop (i + 1 - w)).take w).sum / w)
        else none := by
  have hr : (List.range xs.length)[i]? = some i := List.getElem?_range hi
  simp [rollingMean, List.getD_eq_getElem?_getD, hr]

theorem windowSlice_eq_map_range (xs : List ℚ) (a w : ℕ) (h : a + w ≤ xs.length) :
    (xs.drop a).take w = (List.range w).map fun j => xs.getD (a + j) 0 := by
  apply List.ext_getElem
  · simp only [List.length_take, List.length_drop, List.length_map,
      List.length_range]
    omega
  · intro j h1 h2
    have hj : j < w := by
      simpa using h2
    have hb : a + j < xs.length := by omega
    simp only [List.getElem_take, List.getElem_drop, List.getElem_map,
      List.getElem_range, List.getD_eq_getElem?_getD,
      List.getElem?_eq_getElem hb, Option.getD_some]

theorem rollingMean_getD_warm (w : ℕ) (xs : List ℚ) (i : ℕ)
    (h1 : w - 1 ≤ i) (hw : 0 < w) (hi : i < xs.length) :
    (rollingMean w xs).getD i none
      = some ((((List.range w).map fun j => xs.getD (i - (w - 1) + j) 0).sum) / w) := by
  rw [rollingMean_getD w xs i hi, if_pos (by omega)]
  rw [windowSlice_eq_map_range xs (i + 1 - w) w (by omega)]
  have he : i + 1 - w = i - (w - 1) := by omega
  rw [he]

theorem rollingMean_getD_null (w : ℕ) (xs : List ℚ) (i : ℕ)
    (h1 : i + 1 < w) (hi : i < xs.length) :
    (rollingMean w xs).getD i none = none := by
  rw [rollingMean_getD w xs i hi, if_neg (by omega)]

/-- C4: for every candle sequence of length at least 50, the engine's
`sma_20` and `sma_50` outputs have exactly the input's length, their first
19 (respectively 49) entries are null, and every later entry is the exact
arithmetic mean of the trailing 20 (respectively 50) closes ending at that
position. -/
theorem C4_sma_spec (data : List Candle) (h : 50 ≤ data.length) :
    (calculate_technical_indicators data).sma_20.length = data.length ∧
    (calculate_technical_indicators data).sma_50.length = data.length ∧
    (∀ i < 19, (calculate_technical_indicators data).sma_20.getD i none = none) ∧
    (∀ i < 49, (calculate_technical_indicators data).sma_50.getD i none = none) ∧
    (∀ i, 19 ≤ i → i < data.length →
      (calculate_technical_indicators data).sma_20.getD i none
        = some ((((List.range 20).map fun j =>
            (data.map Candle.close).getD (i - 19 + j) 0).sum) / 20)) ∧
    (∀ i, 49 ≤ i → i < data.length →
      (calculate_technical_indicators data).sma_50.getD i none
        = some ((((List.range 50).map fun j =>
            (data.map Candle.close).getD (i - 49 + j) 0).sum) / 50)) := by
  have hn : ¬ data.length < 50 := by omega
  have hlen : (data.map Candle.close).length = data.length := List.length_map data _
  simp only [calculate_technical_indicators, if_neg hn]
  refine ⟨by rw [rollingMean_length, hlen], by rw [rollingMean_length, hlen],
    fun i hi => ?_, fun i hi => ?_, fun i h19 hi => ?_, fun i h49 hi => ?_⟩
  · exact rollingMean_getD_null 20 _ i (by omega) (by omega)
  · exact rollingMean_getD_null 50 _ i (by omega) (by omega)
  · exact rollingMean_getD_warm 20 _ i (by omega) (by omega) (by omega)
  · exact rollingMean_getD_warm 50 _ i (by omega) (by omega) (by omega)

/-- C4 witness: the theorem instantiated at 50 identical candles. -/
theorem C4_sma_spec_witness :
    50 ≤ (List.replicate 50 (⟨0, 1, 1, 1, 1, 1, 1, 0⟩ : Candle)).length ∧
    ((calculate_technical_indicators
        (List.replicate 50 (⟨0, 1, 1, 1, 1, 1, 1, 0⟩ : Candle))).sma_20.length
      = (List.replicate 50 (⟨0, 1, 1, 1, 1, 1, 1, 0⟩ : Candle)).length ∧
     (calculate_technical_indicators
        (List.replicate 50 (⟨0, 1, 1, 1, 1, 1, 1, 0⟩ : Candle))).sma_50.length
      = (List.replicate 50 (⟨0, 1, 1, 1, 1, 1, 1, 0⟩ : Candle)).length ∧
     (∀ i < 19, (calculate_technical_indicators
        (List.replicate 50 (⟨0, 1, 1, 1, 1, 1, 1, 0⟩ : Candle))).sma_20.getD i none = none) ∧
     (∀ i < 49, (calculate_technical_indicators
        (List.replicate 50 (⟨0, 1, 1, 1, 1, 1, 1, 0⟩ : Candle))).sma_50.getD i none = none) ∧
     (∀ i, 19 ≤ i → i < (List.replicate 50 (⟨0, 1, 1, 1, 1, 1, 1, 0⟩ : Candle)).length →
       (calculate_technical_indicators
          (List.replicate 50 (⟨0, 1, 1, 1, 1, 1, 1, 0⟩ : Candle))).sma_20.getD i none
         = some ((((List.range 20).map fun j =>
             ((List.replicate 50 (⟨0, 1, 1, 1, 1, 1, 1, 0⟩ : Candle)).map
               Candle.close).getD (i - 19 + j) 0).sum) / 20)) ∧
     (∀ i, 49 ≤ i → i < (List.replicate 50 (⟨0, 1, 1, 1, 1, 1, 1, 0⟩ : Candle)).length →
       (calculate_technical_indicators
          (List.replicate 50 (⟨0, 1, 1, 1, 1, 1, 1, 0⟩ : Candle))).sma_50.getD i none
         = some ((((List.range 50).map fun j =>
             ((List.replicate 50 (⟨0, 1, 1, 1, 1, 1, 1, 0⟩ : Candle)).map
               Candle.close).getD (i - 49 + j) 0).sum) / 50))) :=
  ⟨by simp, C4_sma_spec _ (by simp)⟩

/-!
## Claim C8 — MACD relations
-/

theorem zipWith_sub_getD (as bs : List ℚ) (i : ℕ)
    (ha : i < as.length) (hb : i < bs.length) :
    (List.zipWith (· - ·) as bs).getD i 0 = as.getD i 0 - bs.getD i 0 := by
  simp [List.getD_eq_getElem?_getD, List.getElem?_zipWith,
    List.getElem?_eq_getElem ha, List.getElem?_eq_getElem hb]

/-- C8: for every candle sequence the engine accepts (length at least 50),
the three MACD sequences all have the input's length,
`line[i] = EMA12[i] - EMA26[i]`, `signal = EMA(9)` applied to the line,
and `histogram[i] = line[i] - signal[i]` exactly at every index. -/
theorem C8_macd_histogram (data : List Candle) (h : 50 ≤ data.length) :
    (calculate_technical_indicators data).macd_line.length = data.length ∧
    (calculate_technical_indicators data).macd_signal.length = data.length ∧
    (calculate_technical_indicators data).macd_histogram.length = data.length ∧
    (∀ i < data.length,
      (calculate_technical_indicators data).macd_line.getD i 0
        = (ewmMean 12 (data.map Candle.close)).getD i 0
          - (ewmMean 26 (data.map Candle.close)).getD i 0) ∧
    (calculate_technical_indicators data).macd_signal
      = ewmMean 9 (calculate_technical_indicators data).macd_line ∧
    (∀ i < data.length,
      (calculate_technical_indicators data).macd_histogram.getD i 0
        = (calculate_technical_indicators data).macd_line.getD i 0
          - (calculate_technical_indicators data).macd_signal.getD i 0) := by
  have hn : ¬ data.length < 50 := by omega
  have hlen : (data.map Candle.close).length = data.length :=
    List.length_map data _
  simp only [calculate_technical_indicators, if_neg hn]
  have hline : (List.zipWith (· - ·) (ewmMean 12 (data.map Candle.close))
      (ewmMean 26 (data.map Candle.close))).length = data.length := by
    rw [List.length_zipWith, ewmMean_length, ewmMean_length, hlen, min_self]
  have hsig : (ewmMean 9 (List.zipWith (· - ·)
      (ewmMean 12 (data.map Candle.close))
      (ewmMean 26 (data.map Candle.close)))).length = data.length := by
    rw [ewmMean_length, hline]
  refine ⟨hline, hsig, ?_, fun i hi => ?_, by trivial, fun i hi => ?_⟩
  · rw [List.length_zipWith, hline, hsig, min_self]
  · exact zipWith_sub_getD _ _ i (by rw [ewmMean_length, hlen]; exact hi)
      (by rw [ewmMean_length, hlen]; exact hi)
  · exact zipWith_sub_getD _ _ i (by rw [hline]; exact hi)
      (by rw [hsig]; exact hi)

/-- C8 witness: the theorem instantiated at 50 identical candles. -/
theorem C8_macd_histogram_witness :
    50 ≤ (List.replicate 50 (⟨0, 1, 1, 1, 1, 1, 1, 0⟩ : Candle)).length ∧
    ((calculate_technical_indicators
        (List.replicate 50 (⟨0, 1, 1, 1, 1, 1, 1, 0⟩ : Candle))).macd_line.length
      = (List.replicate 50 (⟨0, 1, 1, 1, 1, 1, 1, 0⟩ : Candle)).length ∧
     (calculate_technical_indicators
        (List.replicate 50 (⟨0, 1, 1, 1, 1, 1, 1, 0⟩ : Candle))).macd_signal.length
      = (List.replicate 50 (⟨0, 1, 1, 1, 1, 1, 1, 0⟩ : Candle)).length ∧
     (calculate_technical_indicators
        (List.replicate 50 (⟨0, 1, 1, 1, 1, 1, 1, 0⟩ : Candle))).macd_histogram.length
      = (List.replicate 50 (⟨0, 1, 1, 1, 1, 1, 1, 0⟩ : Candle)).length ∧
     (∀ i < (List.replicate 50 (⟨0, 1, 1, 1, 1, 1, 1, 0⟩ : Candle)).length,
       (calculate_technical_indicators
          (List.replicate 50 (⟨0, 1, 1, 1, 1, 1, 1, 0⟩ : Candle))).macd_line.getD i 0
         = (ewmMean 12 ((List.replicate 50 (⟨0, 1, 1, 1, 1, 1, 1, 0⟩ : Candle)).map
             Candle.close)).getD i 0
           - (ewmMean 26 ((List.replicate 50 (⟨0, 1, 1, 1, 1, 1, 1, 0⟩ : Candle)).map
             Candle.close)).getD i 0) ∧
     (calculate_technical_indicators
        (List.replicate 50 (⟨0, 1, 1, 1, 1, 1, 1, 0⟩ : Candle))).macd_signal
       = ewmMean 9 (calculate_technical_indicators
          (List.replicate 50 (⟨0, 1, 1, 1, 1, 1, 1, 0⟩ : Candle))).macd_line ∧
     (∀ i < (List.replicate 50 (⟨0, 1, 1, 1, 1, 1, 1, 0⟩ : Candle)).length,
       (calculate_technical_indicators
          (List.replicate 50 (⟨0, 1, 1, 1, 1, 1, 1, 0⟩ : Candle))).macd_histogram.getD i 0
         = (calculate_technical_indicators
            (List.replicate 50 (⟨0, 1, 1, 1, 1, 1, 1, 0⟩ : Candle))).macd_line.getD i 0
           - (calculate_technical_indicators
              (List.replicate 50 (⟨0, 1, 1, 1, 1, 1, 1, 0⟩ : Candle))).macd_signal.getD i 0)) :=
  ⟨by simp, C8_macd_histogram _ (by simp)⟩

/-!
## Claim C5 — thirty identical candles
-/

unseal Rat.add Rat.sub Rat.mul Rat.inv Rat.ofScientific in
/-- C5 counterexample: on 30 identical `close = 100` candles the crypto
engine (`calculate_technical_indicators`) does **not** produce an SMA(20)
value of 100 at index 19 — the `len(data) < 50` floor returns the bundle
of empty lists, so `sma_20` has no index 19 at all. -/
theorem C5_sma20_at_19_fails :
    ¬ (calculate_technical_indicators
        (List.replicate 30 (⟨0, 100, 100, 100, 100, 100, 100, 0⟩ : Candle))).sma_20.getD
          19 none = some 100 := by
  decide

unseal Rat.add Rat.sub Rat.mul Rat.inv Rat.ofScientific in
/-- C5 (amended): on 30 identical `close = 100` candles the crypto engine
returns its empty bundle (below the hard floor of 50 observations), while
the equities-path computation (`get_technical_indicators`, which has no
floor) yields `SMA(20)` exactly `100` at index 19 and an entirely
null-masked RSI column, since gains and losses are all zero, making
`avg_gain/avg_loss = 0/0 = NaN` at every warmed-up position (and the
warm-up positions `NaN` as well). -/
theorem C5_thirty_identical_closes :
    (calculate_technical_indicators
        (List.replicate 30 (⟨0, 100, 100, 100, 100, 100, 100, 0⟩ : Candle))).sma_20 = [] ∧
    ((stockTechnical (List.replicate 30 (100 : ℚ))).getD 19
        ⟨0, none, none, none, none, none⟩).sma20 = some 100 ∧
    ∀ row ∈ stockTechnical (List.replicate 30 (100 : ℚ)), row.rsi = none := by
  refine ⟨by decide, by decide, by decide⟩

/-!
## Claim C6 — facade independence
-/

/-- C6: in `get_market_summary`, each field of the returned summary is a
function of its own sub-fetch alone, so a failed or empty sub-fetch
(`none` raw input) yields that field's empty shape (absent ticker, empty
candle result, absent book, absent trades) without disturbing the other
fields; `technical_indicators` is computed only from the long-window
(daily) OHLC series and is the empty mapping (`none`) — not an error —
whenever that series is empty, whether because the daily fetch failed or
because it returned no rows. -/
theorem C6_facade_independent (rawTicker : Option RawTicker)
    (raw1h raw1d : Option (List Candle)) (rawBook : Option RawBook)
    (rawTrades : Option (List RawTrade)) :
    (get_market_summary rawTicker raw1h raw1d rawBook rawTrades).ticker
      = get_ticker rawTicker ∧
    (get_market_summary rawTicker raw1h raw1d rawBook rawTrades).ohlc_1h
      = get_ohlc_data raw1h (some 24) ∧
    (get_market_summary rawTicker raw1h raw1d rawBook rawTrades).ohlc_1d
      = get_ohlc_data raw1d (some 30) ∧
    (get_market_summary rawTicker raw1h raw1d rawBook rawTrades).order_book
      = get_order_book rawBook 5 ∧
    (get_market_summary rawTicker raw1h raw1d rawBook rawTrades).recent_trades
      = get_recent_trades rawTrades 20 ∧
    (get_market_summary none raw1h raw1d rawBook rawTrades).ticker = none ∧
    (get_market_summary rawTicker none raw1d rawBook rawTrades).ohlc_1h
      = { data := [], count := 0 } ∧
    (get_market_summary rawTicker raw1h none rawBook rawTrades).ohlc_1d
      = { data := [], count := 0 } ∧
    (get_market_summary rawTicker raw1h none rawBook rawTrades).technical_indicators
      = none ∧
    (get_market_summary rawTicker raw1h (some []) rawBook rawTrades).technical_indicators
      = none ∧
    (get_market_summary rawTicker raw1h raw1d none rawTrades).order_book = none ∧
    (get_market_summary rawTicker raw1h raw1d rawBook none).recent_trades = none ∧
    (get_market_summary rawTicker raw1h raw1d rawBook rawTrades).technical_indicators
      = (if (get_ohlc_data raw1d (some 30)).data ≠ []
         then some (calculate_technical_indicators (get_ohlc_data raw1d (some 30)).data)
         else none) := by
  refine ⟨rfl, rfl, rfl, rfl, rfl, rfl, rfl, rfl, ?_, ?_, rfl, rfl, rfl⟩
  · simp [get_market_summary, get_ohlc_data]
  · simp [get_market_summary, get_ohlc_data, applyLimit]

/-!
## Claim C7 — best-effort cache
-/

theorem set_cached_data_eq_ok {α : Type} (client : Option (RedisClient α))
    (key : String) (v : α) (ttl : ℕ) :
    set_cached_data client key v ttl = .ok () := by
  cases client with
  | none => rfl
  | some c =>
    have hu : set_cached_data (some c) key v ttl
        = match c.setex key ttl v with
          | .ok _ => Except.ok ()
          | .error _ => Except.ok () := rfl
    rw [hu]
    cases c.setex key ttl v <;> rfl

/-- C7: a cache store that is absent, or whose `get`/`setex` raise on
every call, never surfaces an error: the read behaves as a miss
(`None`), the write is a no-op normal return, and the endpoint bracket
still returns the freshly computed data. -/
theorem C7_cache_best_effort {α : Type} (c : RedisClient α)
    (hget : ∀ k, ∃ e, c.get k = .error e)
    (key : String) (fresh : α) (ttl : ℕ) :
    get_cached_data (some c) key = none ∧
    set_cached_data (some c) key fresh ttl = .ok () ∧
    cachedEndpoint (some c) key fresh ttl = .ok fresh ∧
    get_cached_data (none : Option (RedisClient α)) key = none ∧
    set_cached_data (none : Option (RedisClient α)) key fresh ttl = .ok () ∧
    cachedEndpoint (none : Option (RedisClient α)) key fresh ttl = .ok fresh := by
  obtain ⟨e, he⟩ := hget key
  have hmiss : get_cached_data (some c) key = none := by
    simp [get_cached_data, he]
  refine ⟨hmiss, set_cached_data_eq_ok _ _ _ _, ?_, rfl,
    set_cached_data_eq_ok _ _ _ _, ?_⟩
  · rw [cachedEndpoint, hmiss, set_cached_data_eq_ok]; rfl
  · rw [cachedEndpoint]
    show (do
      let _ ← set_cached_data (none : Option (RedisClient α)) key fresh ttl
      pure fresh) = Except.ok fresh
    rw [set_cached_data_eq_ok]; rfl

/-- C7 witness: the theorem instantiated at a client raising on every
call, with a `ℕ` payload. -/
theorem C7_cache_best_effort_witness :
    (∀ k : String,
      ∃ e, (RedisClient.mk (α := ℕ) (fun _ => .error "down")
              (fun _ _ _ => .error "down")).get k = .error e) ∧
    (get_cached_data (some (RedisClient.mk (α := ℕ) (fun _ => .error "down")
        (fun _ _ _ => .error "down"))) "quote:AAPL" = none ∧
     set_cached_data (some (RedisClient.mk (α := ℕ) (fun _ => .error "down")
        (fun _ _ _ => .error "down"))) "quote:AAPL" 7 60 = .ok () ∧
     cachedEndpoint (some (RedisClient.mk (α := ℕ) (fun _ => .error "down")
        (fun _ _ _ => .error "down"))) "quote:AAPL" 7 60 = .ok 7 ∧
     get_cached_data (none : Option (RedisClient ℕ)) "quote:AAPL" = none ∧
     set_cached_data (none : Option (RedisClient ℕ)) "quote:AAPL" 7 60 = .ok () ∧
     cachedEndpoint (none : Option (RedisClient ℕ)) "quote:AAPL" 7 60 = .ok 7) :=
  ⟨fun _ => ⟨"down", rfl⟩,
   C7_cache_best_effort _ (fun _ => ⟨"down", rfl⟩) "quote:AAPL" 7 60⟩

end Keepitbased
